import Mathlib

/-!
Shallow embedding of the transport-layer socket core of FreeRDP
(src/libfreerdp/core/tcp.c) and verification of its specification.

Bytes are modelled as natural numbers, the ring buffer xmitBuffer as the
list of queued bytes in FIFO order, and the underlying BIO of the buffered
write stream as an oracle: a list of responses, one per call to BIO_write
performed by the drain loop.
-/

namespace FreeRDPTcp

/-- Outcome of one call to BIO_write on the next BIO in the chain, as
classified by the drain loop of transport_bio_buffered_write
(tcp.c lines 495-511): a positive status is sent n; a status of at most
zero is either retryable with should_write set (the EWOULDBLOCK exit),
retryable without should_write (the loop simply runs again), or fatal
(should_retry clear). -/
inductive WResp where
  | sent (n : Nat)
  | wouldBlock
  | retryOther
  | fatal
deriving DecidableEq, Repr

/-- How the drain loop of transport_bio_buffered_write terminated:
all chunks written (done), stopped on a retryable would-block (blocked),
stopped on a non-retryable error (fatalErr), or the oracle ran out of
responses while data remained (stuck; the C loop would keep calling the
underlying BIO, so no claim is stated about this case). -/
inductive DrainStop where
  | done
  | blocked
  | fatalErr
  | stuck
deriving DecidableEq, Repr

/-- The drain loop of transport_bio_buffered_write (tcp.c lines 488-520):
walk the queued bytes (the ringbuffer_peek chunks, concatenated in FIFO
order), calling BIO_write on the next BIO until everything is written or
the underlying stream blocks or fails.  The oracle of underlying-stream
responses is the first argument and the recursion is structural on it.
Returns the total committed byte count (the sum of the positive statuses,
tcp.c line 515), the bytes actually handed to the underlying stream in
order, and the stop reason. -/
def drainChunks : List WResp → List Nat → Nat × List Nat × DrainStop
  | _, [] => (0, [], DrainStop.done)
  | [], _ :: _ => (0, [], DrainStop.stuck)
  | WResp.sent n :: os, rest@(_ :: _) =>
    (n + (drainChunks os (rest.drop n)).1,
     rest.take n ++ (drainChunks os (rest.drop n)).2.1,
     (drainChunks os (rest.drop n)).2.2)
  | WResp.retryOther :: os, rest@(_ :: _) => drainChunks os rest
  | WResp.wouldBlock :: _, _ :: _ => (0, [], DrainStop.blocked)
  | WResp.fatal :: _, _ :: _ => (0, [], DrainStop.fatalErr)

/-- State of WINPR_BIO_BUFFERED_SOCKET (tcp.c lines 451-457): the ring
buffer contents in FIFO order plus the two latched blocked flags. -/
structure BufState where
  xmitBuffer : List Nat
  readBlocked : Bool
  writeBlocked : Bool
deriving DecidableEq, Repr

/-- Return value of transport_bio_buffered_write: ret is initialised to num
and only overwritten with -1 on a fatal (non-retryable) underlying error
(tcp.c lines 461, 502). -/
def writeRet (stop : DrainStop) (num : Nat) : Int :=
  match stop with
  | DrainStop.fatalErr => -1
  | _ => (num : Int)

/-- The writeBlocked flag after transport_bio_buffered_write: cleared on
entry (tcp.c line 473) and raised only on the EWOULDBLOCK exit
(tcp.c line 509). -/
def writeBlockedFlag (stop : DrainStop) : Bool :=
  match stop with
  | DrainStop.blocked => true
  | _ => false

/-- transport_bio_buffered_write (tcp.c lines 459-525): append buf to the
ring buffer (line 479), drain the queued chunks through the underlying
BIO (lines 488-520), then commit exactly the bytes the underlying stream
accepted (ringbuffer_commit_read_bytes, line 523).  Returns the int
status, the bytes delivered downstream by this call, and the new state.
A flush (BIO_CTRL_FLUSH, line 582) is this function with an empty buf. -/
def transport_bio_buffered_write (st : BufState) (buf : List Nat) (oracle : List WResp) :
    Int × List Nat × BufState :=
  (writeRet (drainChunks oracle (st.xmitBuffer ++ buf)).2.2 buf.length,
   (drainChunks oracle (st.xmitBuffer ++ buf)).2.1,
   BufState.mk ((st.xmitBuffer ++ buf).drop (drainChunks oracle (st.xmitBuffer ++ buf)).1)
     st.readBlocked
     (writeBlockedFlag (drainChunks oracle (st.xmitBuffer ++ buf)).2.2))

/-- Repeated write calls while the underlying stream answers every
BIO_write with a would-block condition: each call appends its buffer and
the drain delivers nothing. -/
def submitWhileBlocked (st : BufState) : List (List Nat) → BufState
  | [] => st
  | b :: bs => submitWhileBlocked (transport_bio_buffered_write st b [WResp.wouldBlock]).2.2 bs

theorem drainChunks_delivered_eq_take :
    ∀ (os : List WResp) (rest : List Nat),
      (drainChunks os rest).2.1 = rest.take (drainChunks os rest).1 := by
  intro os
  induction os with
  | nil => intro rest; cases rest <;> simp [drainChunks]
  | cons r os ih =>
    intro rest
    cases rest with
    | nil => simp [drainChunks]
    | cons a l =>
      cases r with
      | sent n =>
        simp only [drainChunks]
        rw [List.take_add, ih ((a :: l).drop n)]
      | retryOther => simpa [drainChunks] using ih (a :: l)
      | wouldBlock => simp [drainChunks]
      | fatal => simp [drainChunks]

theorem drainChunks_no_loss (os : List WResp) (rest : List Nat) :
    (drainChunks os rest).2.1 ++ rest.drop (drainChunks os rest).1 = rest := by
  rw [drainChunks_delivered_eq_take]
  exact List.take_append_drop _ _

theorem drainChunks_done_delivers_all :
    ∀ (os : List WResp) (rest : List Nat),
      (drainChunks os rest).2.2 = DrainStop.done → (drainChunks os rest).2.1 = rest := by
  intro os
  induction os with
  | nil => intro rest; cases rest <;> simp [drainChunks]
  | cons r os ih =>
    intro rest
    cases rest with
    | nil => simp [drainChunks]
    | cons a l =>
      cases r with
      | sent n =>
        intro h
        simp only [drainChunks] at h ⊢
        rw [ih _ h]
        exact List.take_append_drop _ _
      | retryOther =>
        intro h
        simp only [drainChunks] at h ⊢
        exact ih (a :: l) h
      | wouldBlock => simp [drainChunks]
      | fatal => simp [drainChunks]

theorem drainChunks_done_empties (os : List WResp) (rest : List Nat)
    (h : (drainChunks os rest).2.2 = DrainStop.done) :
    rest.drop (drainChunks os rest).1 = [] := by
  have h1 := drainChunks_no_loss os rest
  rw [drainChunks_done_delivers_all os rest h] at h1
  have h2 := congrArg List.length h1
  rw [List.length_append] at h2
  have h3 : (rest.drop (drainChunks os rest).1).length = 0 := by omega
  exact List.eq_nil_of_length_eq_zero h3

theorem buffered_write_no_loss (st : BufState) (buf : List Nat) (oracle : List WResp) :
    (transport_bio_buffered_write st buf oracle).2.1
      ++ (transport_bio_buffered_write st buf oracle).2.2.xmitBuffer
    = st.xmitBuffer ++ buf := by
  simp only [transport_bio_buffered_write]
  exact drainChunks_no_loss oracle (st.xmitBuffer ++ buf)

theorem submitWhileBlocked_queue :
    ∀ (bs : List (List Nat)) (st : BufState),
      (submitWhileBlocked st bs).xmitBuffer = st.xmitBuffer ++ bs.flatten := by
  intro bs
  induction bs with
  | nil => intro st; simp [submitWhileBlocked]
  | cons b bs ih =>
    intro st
    rw [submitWhileBlocked, ih]
    have hkey : (transport_bio_buffered_write st b [WResp.wouldBlock]).2.2.xmitBuffer
        = st.xmitBuffer ++ b := by
      simp only [transport_bio_buffered_write]
      cases hq : st.xmitBuffer ++ b with
      | nil => simp [drainChunks]
      | cons a l => simp [drainChunks]
    rw [hkey, List.flatten_cons, ← List.append_assoc]

/-- Claim C1: bytes submitted to the buffered write stream are delivered to
the underlying stream exactly once, in submission order.  Part one: for
every single write call, the bytes delivered by the drain followed by the
bytes still queued are exactly the old queue plus the new buffer; the
delivered bytes are precisely the first N bytes of the queued data (N the
number delivered) and the queue afterwards is exactly the original minus
those first N bytes, so a later drain resumes at that offset.  Part two:
writes submitted while the underlying stream would-blocks accumulate in
order in the queue.  Part three: a drain that runs to completion delivers
the whole queued content and empties the queue. -/
theorem buffered_write_exact_delivery :
    (∀ (st : BufState) (buf : List Nat) (oracle : List WResp),
       (transport_bio_buffered_write st buf oracle).2.1
           ++ (transport_bio_buffered_write st buf oracle).2.2.xmitBuffer
         = st.xmitBuffer ++ buf
       ∧ (transport_bio_buffered_write st buf oracle).2.1
         = (st.xmitBuffer ++ buf).take
             (transport_bio_buffered_write st buf oracle).2.1.length
       ∧ (transport_bio_buffered_write st buf oracle).2.2.xmitBuffer
         = (st.xmitBuffer ++ buf).drop
             (transport_bio_buffered_write st buf oracle).2.1.length)
    ∧ (∀ (st : BufState) (bs : List (List Nat)),
       (submitWhileBlocked st bs).xmitBuffer = st.xmitBuffer ++ bs.flatten)
    ∧ (∀ (st : BufState) (buf : List Nat) (oracle : List WResp),
       (drainChunks oracle (st.xmitBuffer ++ buf)).2.2 = DrainStop.done →
       (transport_bio_buffered_write st buf oracle).2.1 = st.xmitBuffer ++ buf
       ∧ (transport_bio_buffered_write st buf oracle).2.2.xmitBuffer = []) := by
  refine ⟨fun st buf oracle => ?_, fun st bs => submitWhileBlocked_queue bs st,
    fun st buf oracle h => ?_⟩
  · have hnl := buffered_write_no_loss st buf oracle
    have hpre : (transport_bio_buffered_write st buf oracle).2.1
        = (st.xmitBuffer ++ buf).take
            (transport_bio_buffered_write st buf oracle).2.1.length := by
      have : (transport_bio_buffered_write st buf oracle).2.1 <+: (st.xmitBuffer ++ buf) :=
        ⟨(transport_bio_buffered_write st buf oracle).2.2.xmitBuffer, hnl⟩
      exact List.prefix_iff_eq_take.mp this
    refine ⟨hnl, hpre, ?_⟩
    have := congrArg (List.drop (transport_bio_buffered_write st buf oracle).2.1.length) hnl
    rwa [List.drop_left] at this
  · refine ⟨?_, ?_⟩
    · simp only [transport_bio_buffered_write]
      exact drainChunks_done_delivers_all oracle (st.xmitBuffer ++ buf) h
    · simp only [transport_bio_buffered_write]
      exact drainChunks_done_empties oracle (st.xmitBuffer ++ buf) h

/-- Witness for C1: queue [1, 2] plus submitted [3]; the underlying stream
accepts all three bytes, so the drain is done, the delivered bytes are
[1, 2, 3] and the queue is left empty. -/
theorem buffered_write_exact_delivery_witness :
    (drainChunks [WResp.sent 3] ((BufState.mk [1, 2] false false).xmitBuffer ++ [3])).2.2
        = DrainStop.done
    ∧ (transport_bio_buffered_write (BufState.mk [1, 2] false false) [3] [WResp.sent 3]).2.1
        = (BufState.mk [1, 2] false false).xmitBuffer ++ [3]
    ∧ (transport_bio_buffered_write (BufState.mk [1, 2] false false) [3]
        [WResp.sent 3]).2.2.xmitBuffer = [] :=
  ⟨by decide,
   buffered_write_exact_delivery.2.2 (BufState.mk [1, 2] false false) [3] [WResp.sent 3]
     (by decide)⟩

/-- Claim C2: when the drain hits a retryable would-block condition, the
write call stops draining, keeps the undelivered remainder queued, raises
the writeBlocked flag and still returns the full submitted count, never an
error: the data of the caller is captured, not dropped. -/
theorem buffered_write_wouldblock_absorbs (st : BufState) (buf : List Nat)
    (oracle : List WResp)
    (h : (drainChunks oracle (st.xmitBuffer ++ buf)).2.2 = DrainStop.blocked) :
    (transport_bio_buffered_write st buf oracle).1 = (buf.length : Int)
    ∧ (transport_bio_buffered_write st buf oracle).2.2.writeBlocked = true
    ∧ (transport_bio_buffered_write st buf oracle).2.1
        ++ (transport_bio_buffered_write st buf oracle).2.2.xmitBuffer
      = st.xmitBuffer ++ buf := by
  refine ⟨?_, ?_, buffered_write_no_loss st buf oracle⟩
  · simp only [transport_bio_buffered_write, h, writeRet]
  · simp only [transport_bio_buffered_write, h, writeBlockedFlag]

/-- Witness for C2: submitting [7, 8] to an empty queue while the
underlying stream would-blocks returns 2 (success), raises writeBlocked
and keeps both bytes queued. -/
theorem buffered_write_wouldblock_absorbs_witness :
    (drainChunks [WResp.wouldBlock] ((BufState.mk [] false false).xmitBuffer ++ [7, 8])).2.2
        = DrainStop.blocked
    ∧ (transport_bio_buffered_write (BufState.mk [] false false) [7, 8]
          [WResp.wouldBlock]).1 = (([7, 8] : List Nat).length : Int)
    ∧ (transport_bio_buffered_write (BufState.mk [] false false) [7, 8]
          [WResp.wouldBlock]).2.2.writeBlocked = true
    ∧ (transport_bio_buffered_write (BufState.mk [] false false) [7, 8]
          [WResp.wouldBlock]).2.1
        ++ (transport_bio_buffered_write (BufState.mk [] false false) [7, 8]
          [WResp.wouldBlock]).2.2.xmitBuffer
      = (BufState.mk [] false false).xmitBuffer ++ [7, 8] :=
  ⟨by decide,
   buffered_write_wouldblock_absorbs (BufState.mk [] false false) [7, 8] [WResp.wouldBlock]
     (by decide)⟩

/-- Counterexample to C3: with queue [1, 2, 3] and an underlying stream
that fails fatally on the first BIO_write, the call returns -1 but the
queue still holds all three bytes afterwards: tcp.c line 523 commits only
the bytes already delivered, it never discards the undrained remainder. -/
theorem buffered_write_fatal_counterexample :
    (transport_bio_buffered_write (BufState.mk [1, 2, 3] false false) [] [WResp.fatal]).1 = -1
    ∧ (transport_bio_buffered_write (BufState.mk [1, 2, 3] false false) []
        [WResp.fatal]).2.2.xmitBuffer = [1, 2, 3]
    ∧ ¬ (transport_bio_buffered_write (BufState.mk [1, 2, 3] false false) []
        [WResp.fatal]).2.2.xmitBuffer = [] := by
  refine ⟨by decide, by decide, by decide⟩

/-- Claim C3 as amended: on a fatal underlying error the write call returns
-1, but the queue is not discarded: it retains exactly the undrained
remainder (the queued data minus the bytes already delivered before the
failure), and the writeBlocked flag stays clear. -/
theorem buffered_write_fatal_keeps_queue (st : BufState) (buf : List Nat)
    (oracle : List WResp)
    (h : (drainChunks oracle (st.xmitBuffer ++ buf)).2.2 = DrainStop.fatalErr) :
    (transport_bio_buffered_write st buf oracle).1 = -1
    ∧ (transport_bio_buffered_write st buf oracle).2.1
        ++ (transport_bio_buffered_write st buf oracle).2.2.xmitBuffer
      = st.xmitBuffer ++ buf
    ∧ (transport_bio_buffered_write st buf oracle).2.2.writeBlocked = false := by
  refine ⟨?_, buffered_write_no_loss st buf oracle, ?_⟩
  · simp only [transport_bio_buffered_write, h, writeRet]
  · simp only [transport_bio_buffered_write, h, writeBlockedFlag]

/-- Witness for the amended C3: queue [1, 2, 3], the underlying stream
accepts one byte then fails fatally: the call returns -1 and the queue
retains [2, 3]. -/
theorem buffered_write_fatal_keeps_queue_witness :
    (drainChunks [WResp.sent 1, WResp.fatal]
        ((BufState.mk [1, 2, 3] false false).xmitBuffer ++ [])).2.2 = DrainStop.fatalErr
    ∧ (transport_bio_buffered_write (BufState.mk [1, 2, 3] false false) []
          [WResp.sent 1, WResp.fatal]).1 = -1
    ∧ (transport_bio_buffered_write (BufState.mk [1, 2, 3] false false) []
          [WResp.sent 1, WResp.fatal]).2.1
        ++ (transport_bio_buffered_write (BufState.mk [1, 2, 3] false false) []
          [WResp.sent 1, WResp.fatal]).2.2.xmitBuffer
      = (BufState.mk [1, 2, 3] false false).xmitBuffer ++ []
    ∧ (transport_bio_buffered_write (BufState.mk [1, 2, 3] false false) []
          [WResp.sent 1, WResp.fatal]).2.2.writeBlocked = false :=
  ⟨by decide,
   buffered_write_fatal_keeps_queue (BufState.mk [1, 2, 3] false false) []
     [WResp.sent 1, WResp.fatal] (by decide)⟩

/-- The WinSock error codes this file distinguishes.  The transient set
checked by transport_bio_simple_read and transport_bio_simple_write is
WSAEWOULDBLOCK, WSAEINTR, WSAEINPROGRESS, WSAEALREADY (tcp.c lines
122-123, 162-163); WSAECONNRESET is probed by freerdp_tcp_connect_timeout
(tcp.c line 855). -/
inductive WSAErr where
  | wouldblock
  | eintr
  | einprogress
  | ealready
  | connreset
  | otherErr
deriving DecidableEq, Repr

/-- The transient-error test of tcp.c lines 162-163. -/
def isTransientErr (e : WSAErr) : Bool :=
  match e with
  | WSAErr.wouldblock => true
  | WSAErr.eintr => true
  | WSAErr.einprogress => true
  | WSAErr.ealready => true
  | _ => false

/-- The BIO flags of the simple socket BIO that transport_bio_simple_read
manipulates: BIO_FLAGS_READ and BIO_FLAGS_SHOULD_RETRY. -/
structure SimpleBioFlags where
  flagRead : Bool
  shouldRetry : Bool
deriving DecidableEq, Repr

/-- transport_bio_simple_read (tcp.c lines 136-173).  bufNull models a
NULL buffer argument (line 142, returns 0 touching nothing); status is
the _recv return value and err the WSAGetLastError value examined when
status is negative.  The BIO_FLAGS_READ flag is cleared on entry
(line 145); a positive status is returned as is; a zero status clears
BIO_FLAGS_SHOULD_RETRY and returns 0 (peer close, lines 154-158); a
negative status with a transient error sets both flags and returns -1
(lines 162-166); any other error clears BIO_FLAGS_SHOULD_RETRY and
returns -1 (lines 167-172). -/
def transport_bio_simple_read (fl : SimpleBioFlags) (bufNull : Bool) (status : Int)
    (err : WSAErr) : Int × SimpleBioFlags :=
  if bufNull then (0, fl)
  else
    let fl1 := SimpleBioFlags.mk false fl.shouldRetry
    if 0 < status then (status, fl1)
    else if status = 0 then (0, SimpleBioFlags.mk fl1.flagRead false)
    else if isTransientErr err then (-1, SimpleBioFlags.mk true true)
    else (-1, SimpleBioFlags.mk fl1.flagRead false)

/-- Claim C9: for a raw-socket-stream read with a real buffer, a zero
receive result is end of stream: 0 is returned and the retry flag is
cleared, never a retryable condition; a negative result with a transient
error (would-block, interrupted, in-progress, already-in-progress) is
retryable: -1 with both the read and retry flags set; a negative result
with any other error is fatal: -1 with the retry flag cleared. -/
theorem simple_read_classification (fl : SimpleBioFlags) (status : Int) (err : WSAErr) :
    (status = 0 →
      transport_bio_simple_read fl false status err = (0, SimpleBioFlags.mk false false))
    ∧ (status < 0 → isTransientErr err = true →
      transport_bio_simple_read fl false status err = (-1, SimpleBioFlags.mk true true))
    ∧ (status < 0 → isTransientErr err = false →
      transport_bio_simple_read fl false status err = (-1, SimpleBioFlags.mk false false)) := by
  refine ⟨fun h0 => ?_, fun hneg ht => ?_, fun hneg ht => ?_⟩
  · simp [transport_bio_simple_read, h0]
  · have h1 : ¬ (0 < status) := by omega
    have h2 : ¬ (status = 0) := by omega
    simp [transport_bio_simple_read, h1, h2, ht]
  · have h1 : ¬ (0 < status) := by omega
    have h2 : ¬ (status = 0) := by omega
    simp [transport_bio_simple_read, h1, h2, ht]

/-- Witness for C9: a peer close (status 0), a would-block (-1 transient)
and a reset (-1 fatal), each evaluated on concrete flag state. -/
theorem simple_read_classification_witness :
    transport_bio_simple_read (SimpleBioFlags.mk true true) false 0 WSAErr.otherErr
      = (0, SimpleBioFlags.mk false false)
    ∧ transport_bio_simple_read (SimpleBioFlags.mk false true) false (-1) WSAErr.wouldblock
      = (-1, SimpleBioFlags.mk true true)
    ∧ transport_bio_simple_read (SimpleBioFlags.mk false true) false (-1) WSAErr.connreset
      = (-1, SimpleBioFlags.mk false false) :=
  ⟨(simple_read_classification (SimpleBioFlags.mk true true) 0 WSAErr.otherErr).1 rfl,
   (simple_read_classification (SimpleBioFlags.mk false true) (-1) WSAErr.wouldblock).2.1
     (by decide) rfl,
   (simple_read_classification (SimpleBioFlags.mk false true) (-1) WSAErr.connreset).2.2
     (by decide) rfl⟩

/-- A sockaddr as examined by freerdp_tcp_address_to_string.  For the two
IP families the constructor carries the textual form that inet_ntop (an
external primitive) produces for the stored binary address. -/
inductive SockAddr where
  | inet (text : String)
  | inet6 (text : String)
  | unixSock (path : String)
  | otherFamily
deriving DecidableEq, Repr

/-- freerdp_tcp_address_to_string (tcp.c lines 664-705): a null addr
returns null; AF_INET and AF_INET6 convert via inet_ntop; AF_UNIX prints
the literal 127.0.0.1 regardless of the socket path (line 692); any other
family returns null.  When the pIPv6 out parameter is non-null
(wantIPv6), it receives whether the family was AF_INET6 (line 701).
Returns (address string, value stored through pIPv6). -/
def freerdp_tcp_address_to_string (addr : Option SockAddr) (wantIPv6 : Bool) :
    Option (String × Option Bool) :=
  match addr with
  | none => none
  | some (SockAddr.inet t) => some (t, if wantIPv6 then some false else none)
  | some (SockAddr.inet6 t) => some (t, if wantIPv6 then some true else none)
  | some (SockAddr.unixSock _) => some ("127.0.0.1", if wantIPv6 then some false else none)
  | some SockAddr.otherFamily => none

/-- freerdp_tcp_get_ip_address (tcp.c lines 707-718): getsockname is
modelled as an optional sockaddr (none = failure); the pIPv6 pointer the
default connect path passes is the address of settings->IPv6Enabled, so
wantIPv6 is true (tcp.c line 1276). -/
def freerdp_tcp_get_ip_address (saddr : Option SockAddr) : Option (String × Option Bool) :=
  match saddr with
  | none => none
  | some a => freerdp_tcp_address_to_string (some a) true

/-- Claim C10: AF_INET and AF_INET6 addresses convert to their textual IP
form; an AF_UNIX address converts to the literal 127.0.0.1 with the IPv6
flag reported false, regardless of the socket path; a null address or any
other family yields null; hence the client address recorded after a
Unix-domain connect is always 127.0.0.1. -/
theorem address_to_string_cases :
    (∀ (t : String) (w : Bool),
       freerdp_tcp_address_to_string (some (SockAddr.inet t)) w
         = some (t, if w then some false else none))
    ∧ (∀ (t : String) (w : Bool),
       freerdp_tcp_address_to_string (some (SockAddr.inet6 t)) w
         = some (t, if w then some true else none))
    ∧ (∀ (p : String) (w : Bool),
       freerdp_tcp_address_to_string (some (SockAddr.unixSock p)) w
         = some ("127.0.0.1", if w then some false else none))
    ∧ (∀ (w : Bool), freerdp_tcp_address_to_string none w = none)
    ∧ (∀ (w : Bool), freerdp_tcp_address_to_string (some SockAddr.otherFamily) w = none)
    ∧ (∀ (p : String),
       freerdp_tcp_get_ip_address (some (SockAddr.unixSock p))
         = some ("127.0.0.1", some false)) :=
  ⟨fun _ _ => rfl, fun _ _ => rfl, fun _ _ => rfl, fun _ => rfl, fun _ => rfl, fun _ => rfl⟩

/-- State of rdp_tcp_layer (tcp.c lines 1341-1346): the socket descriptor
and the readiness event handle (false models a NULL handle). -/
structure RdpTcpLayer where
  sockfd : Int
  hEvent : Bool
deriving DecidableEq, Repr

/-- freerdp_tcp_layer_close (tcp.c lines 1394-1407): closes the socket
when sockfd is non-negative, closes the event handle when non-null,
returns TRUE.  The function never writes to the layer fields, so the
state is returned unchanged.  Result: (return value, layer state after
the call, number of closesocket calls, number of CloseHandle calls). -/
def freerdp_tcp_layer_close (l : RdpTcpLayer) : Bool × RdpTcpLayer × Nat × Nat :=
  (true, l, if 0 ≤ l.sockfd then 1 else 0, if l.hEvent then 1 else 0)

/-- Counterexample to C7: closing a layer holding socket 3 and a live
event releases both, but since the fields are left untouched a second
close on the resulting state closes the socket again (one further
closesocket call, not zero): close is not idempotent and the handles are
not released exactly once across repeated calls. -/
theorem layer_close_not_idempotent_counterexample :
    freerdp_tcp_layer_close (RdpTcpLayer.mk 3 true) = (true, RdpTcpLayer.mk 3 true, 1, 1)
    ∧ (freerdp_tcp_layer_close
        (freerdp_tcp_layer_close (RdpTcpLayer.mk 3 true)).2.1).2.2.1 = 1
    ∧ ¬ (freerdp_tcp_layer_close
        (freerdp_tcp_layer_close (RdpTcpLayer.mk 3 true)).2.1).2.2.1 = 0 := by
  refine ⟨by decide, by decide, by decide⟩

/-- Claim C7 as amended: one close call returns TRUE, releases the socket
at most once (exactly when sockfd is non-negative) and the readiness
handle at most once (exactly when non-null), and is a harmless no-op
after a partial construction failure where neither resource was created;
but it leaves the stored fields unchanged, so a second call on the
resulting state performs exactly the same releases again: close is not
idempotent. -/
theorem layer_close_single_call (l : RdpTcpLayer) :
    (freerdp_tcp_layer_close l).1 = true
    ∧ (freerdp_tcp_layer_close l).2.1 = l
    ∧ (freerdp_tcp_layer_close l).2.2.1 ≤ 1
    ∧ (freerdp_tcp_layer_close l).2.2.2 ≤ 1
    ∧ (l.sockfd < 0 → (freerdp_tcp_layer_close l).2.2.1 = 0)
    ∧ (l.hEvent = false → (freerdp_tcp_layer_close l).2.2.2 = 0)
    ∧ (freerdp_tcp_layer_close ((freerdp_tcp_layer_close l).2.1)).2.2
        = (freerdp_tcp_layer_close l).2.2 := by
  refine ⟨rfl, rfl, ?_, ?_, ?_, ?_, rfl⟩
  · simp only [freerdp_tcp_layer_close]
    split <;> simp
  · simp only [freerdp_tcp_layer_close]
    split <;> simp
  · intro h
    simp only [freerdp_tcp_layer_close]
    rw [if_neg (by omega)]
  · intro h
    simp [freerdp_tcp_layer_close, h]

/-- Witness for the amended C7: a layer left over from a partial
construction failure (sockfd -1, no event) releases nothing. -/
theorem layer_close_single_call_witness :
    (freerdp_tcp_layer_close (RdpTcpLayer.mk (-1) false)).2.2.1 = 0
    ∧ (freerdp_tcp_layer_close (RdpTcpLayer.mk (-1) false)).2.2.2 = 0 :=
  ⟨(layer_close_single_call (RdpTcpLayer.mk (-1) false)).2.2.2.2.1 (by decide),
   (layer_close_single_call (RdpTcpLayer.mk (-1) false)).2.2.2.2.2.1 rfl⟩

/-- Result of the non-blocking _connect call in freerdp_tcp_connect_timeout
(tcp.c line 829): non-negative, or negative with a WinSock error. -/
inductive ConnectRes where
  | ok
  | err (e : WSAErr)
deriving DecidableEq, Repr

/-- Whether the connect result aborts the attempt: only WSAEINPROGRESS and
WSAEWOULDBLOCK are tolerated (tcp.c lines 836-842). -/
def connectErrFatal (r : ConnectRes) : Bool :=
  match r with
  | ConnectRes.ok => false
  | ConnectRes.err WSAErr.einprogress => false
  | ConnectRes.err WSAErr.wouldblock => false
  | ConnectRes.err _ => true

/-- Environment of one freerdp_tcp_connect_timeout run (tcp.c lines
805-874): the outcome of each external call it makes, in program order. -/
structure ConnectTimeoutEnv where
  createEventOk : Bool
  eventSelectOk : Bool
  connectRes : ConnectRes
  readinessSignaled : Bool
  abortSignaled : Bool
  recvFailed : Bool
  recvErr : WSAErr
  deselectOk : Bool
  ioctlOk : Bool
deriving DecidableEq, Repr

/-- WaitForMultipleObjects over handles[0] (connect readiness) and
handles[1] (the abort event) with bWaitAll FALSE (tcp.c line 846):
returns the lowest signaled index, or the WAIT_TIMEOUT code 258 when
neither is signaled within the timeout. -/
def waitForMultipleObjects (sig0 sig1 : Bool) : Nat :=
  if sig0 then 0 else if sig1 then 1 else 258

/-- freerdp_tcp_connect_timeout (tcp.c lines 805-874): create the event,
select connect events on it, issue the non-blocking connect (tolerating
in-progress and would-block), wait on the readiness and abort handles,
fail unless the wait returned WAIT_OBJECT_0 (index 0, line 848), probe
for an immediate reset via a zero-length recv, deselect the event and
restore blocking mode.  Every failure path returns FALSE. -/
def freerdp_tcp_connect_timeout (env : ConnectTimeoutEnv) : Bool :=
  if env.createEventOk = false then false
  else if env.eventSelectOk = false then false
  else if connectErrFatal env.connectRes then false
  else if waitForMultipleObjects env.readinessSignaled env.abortSignaled ≠ 0 then false
  else if env.recvFailed = true ∧ env.recvErr = WSAErr.connreset then false
  else if env.deselectOk = false then false
  else if env.ioctlOk = false then false
  else true

/-- Claim C4: if the external abort (cancellation) event is already
signaled while connect readiness has not fired, the wait returns index 1,
not WAIT_OBJECT_0, so freerdp_tcp_connect_timeout returns FALSE — never
success — no matter how the remaining calls (including the connect
itself) would have turned out. -/
theorem connect_timeout_cancelled (env : ConnectTimeoutEnv)
    (hr : env.readinessSignaled = false) (ha : env.abortSignaled = true) :
    freerdp_tcp_connect_timeout env = false := by
  simp [freerdp_tcp_connect_timeout, waitForMultipleObjects, hr, ha]

/-- Witness for C4: everything else succeeds (event created, select ok,
connect immediately successful, no reset, deselect and ioctl ok), yet the
pre-signaled abort makes the call fail. -/
theorem connect_timeout_cancelled_witness :
    freerdp_tcp_connect_timeout
      (ConnectTimeoutEnv.mk true true ConnectRes.ok false true false WSAErr.otherErr true true)
      = false :=
  connect_timeout_cancelled
    (ConnectTimeoutEnv.mk true true ConnectRes.ok false true false WSAErr.otherErr true true)
    rfl rfl

/-- Address family of one resolved addrinfo entry. -/
inductive Fam where
  | inet
  | inet6
  | otherFam
deriving DecidableEq, Repr

/-- The while loops of tcp.c that walk an addrinfo chain until an entry
of the wanted family is found (lines 1080-1081, 1094-1095 and the AF_INET
scan at 927-931): returns the index of the first matching entry, or
none. -/
def scanFamily (f : Fam) : List Fam → Option Nat
  | [] => none
  | g :: rest => if g = f then some 0 else (scanFamily f rest).map (· + 1)

theorem scanFamily_eq_some_iff (f : Fam) :
    ∀ (l : List Fam) (j : Nat),
      scanFamily f l = some j ↔
        (j < l.length ∧ l.getD j Fam.otherFam = f
          ∧ ∀ m, m < j → l.getD m Fam.otherFam ≠ f) := by
  intro l
  induction l with
  | nil => intro j; simp [scanFamily]
  | cons g rest ih =>
    intro j
    by_cases hg : g = f
    · subst hg
      simp only [scanFamily, if_pos rfl]
      constructor
      · rintro h
        cases h
        exact ⟨by simp, by simp, fun m hm => by omega⟩
      · rintro ⟨-, -, hmin⟩
        rcases Nat.eq_zero_or_pos j with h0 | h0
        · simp [h0]
        · exact False.elim (by simpa using hmin 0 h0)
    · simp only [scanFamily, if_neg hg]
      constructor
      · intro h
        rcases Option.map_eq_some'.mp h with ⟨j0, hj0, rfl⟩
        rcases (ih j0).mp hj0 with ⟨hlen, hget, hmin⟩
        refine ⟨by simpa using hlen, by simpa using hget, ?_⟩
        intro m hm
        cases m with
        | zero => simpa using hg
        | succ m0 => simpa using hmin m0 (by omega)
      · rintro ⟨hlen, hget, hmin⟩
        cases j with
        | zero => exact absurd (by simpa using hget) hg
        | succ j0 =>
          have : scanFamily f rest = some j0 := by
            refine (ih j0).mpr ⟨by simpa using hlen, by simpa using hget, ?_⟩
            intro m hm
            simpa using hmin (m + 1) (by omega)
          simp [this]

theorem scanFamily_eq_none_iff (f : Fam) :
    ∀ (l : List Fam),
      scanFamily f l = none ↔ ∀ m, m < l.length → l.getD m Fam.otherFam ≠ f := by
  intro l
  induction l with
  | nil => simp [scanFamily]
  | cons g rest ih =>
    by_cases hg : g = f
    · subst hg
      simp only [scanFamily, if_pos rfl]
      constructor
      · intro h; cases h
      · intro h
        exact False.elim (by simpa using h 0 (by simp))
    · simp only [scanFamily, if_neg hg, Option.map_eq_none']
      rw [ih]
      constructor
      · intro h m hm
        cases m with
        | zero => simpa using hg
        | succ m0 => simpa using h m0 (by simpa using hm)
      · intro h m hm
        simpa using h (m + 1) (by simpa using hm)

/-- get_next_addrinfo (tcp.c lines 1068-1112) acting on the resolved
address list: returns the index of the chosen entry, or none when the
function fails (null input, or no entry of a forced family found).
prefer is FreeRDP_PreferIPv6OverIPv4 (lines 1078-1084): scan for the
first AF_INET6 entry, falling back to the head when there is none.
forceIPvX is FreeRDP_ForceIPvX (lines 1087-1100, 0 = unset): continue
scanning for the forced family starting from the entry the prefer step
left off at, exactly as the C code keeps walking the same addr pointer. -/
def get_next_addrinfo (prefer : Bool) (forceIPvX : Nat) (input : List Fam) : Option Nat :=
  match input with
  | [] => none
  | _ :: _ =>
    let i0 : Nat :=
      if prefer then
        match scanFamily Fam.inet6 input with
        | some j => j
        | none => 0
      else 0
    match forceIPvX with
    | 4 => (scanFamily Fam.inet (input.drop i0)).map (i0 + ·)
    | 6 => (scanFamily Fam.inet6 (input.drop i0)).map (i0 + ·)
    | _ => some i0

/-- Counterexample to C6: with PreferIPv6OverIPv4 enabled and ForceIPvX
set to 4 on the list [IPv4, IPv6, IPv4], the prefer scan first moves to
the IPv6 entry at index 1 and the force scan continues from there, so the
chosen entry is index 2, not the first IPv4 entry (index 0) as the claim
requires. -/
theorem get_next_addrinfo_counterexample :
    get_next_addrinfo true 4 [Fam.inet, Fam.inet6, Fam.inet] = some 2
    ∧ scanFamily Fam.inet [Fam.inet, Fam.inet6, Fam.inet] = some 0
    ∧ ¬ get_next_addrinfo true 4 [Fam.inet, Fam.inet6, Fam.inet] = some 0 := by
  refine ⟨by decide, by decide, by decide⟩

/-- Claim C6 as amended: with PreferIPv6OverIPv4 and no forced family the
chosen entry is the first IPv6 entry, or the head when there is none;
with a forced family the scan starts from the entry selected by the
prefer policy, so with prefer disabled ForceIPvX 4 selects the first IPv4
entry and fails hard when there is none, and ForceIPvX 6 selects the
first IPv6 entry (regardless of the prefer flag, since the prefer scan
stops at that same entry) and fails hard when there is none; in
particular on [IPv6, IPv4, IPv6] prefer chooses index 0 and force-IPv4
(prefer off) chooses index 1, and force-IPv6 on an IPv4-only list fails. -/
theorem get_next_addrinfo_policy :
    (∀ (input : List Fam) (j : Nat),
       j < input.length → input.getD j Fam.otherFam = Fam.inet6 →
       (∀ m, m < j → input.getD m Fam.otherFam ≠ Fam.inet6) →
       get_next_addrinfo true 0 input = some j)
    ∧ (∀ (input : List Fam), input ≠ [] →
       (∀ m, m < input.length → input.getD m Fam.otherFam ≠ Fam.inet6) →
       get_next_addrinfo true 0 input = some 0)
    ∧ (∀ (input : List Fam) (j : Nat),
       j < input.length → input.getD j Fam.otherFam = Fam.inet →
       (∀ m, m < j → input.getD m Fam.otherFam ≠ Fam.inet) →
       get_next_addrinfo false 4 input = some j)
    ∧ (∀ (input : List Fam),
       (∀ m, m < input.length → input.getD m Fam.otherFam ≠ Fam.inet) →
       get_next_addrinfo false 4 input = none)
    ∧ (∀ (p : Bool) (input : List Fam) (j : Nat),
       j < input.length → input.getD j Fam.otherFam = Fam.inet6 →
       (∀ m, m < j → input.getD m Fam.otherFam ≠ Fam.inet6) →
       get_next_addrinfo p 6 input = some j)
    ∧ (∀ (p : Bool) (input : List Fam),
       (∀ m, m < input.length → input.getD m Fam.otherFam ≠ Fam.inet6) →
       get_next_addrinfo p 6 input = none)
    ∧ get_next_addrinfo true 0 [Fam.inet6, Fam.inet, Fam.inet6] = some 0
    ∧ get_next_addrinfo false 4 [Fam.inet6, Fam.inet, Fam.inet6] = some 1
    ∧ get_next_addrinfo false 6 [Fam.inet, Fam.inet] = none := by
  have hne : ∀ (input : List Fam) (j : Nat), j < input.length → input ≠ [] := by
    intro input j hj h
    subst h
    simp at hj
  refine ⟨?_, ?_, ?_, ?_, ?_, ?_, by decide, by decide, by decide⟩
  · intro input j hj hget hmin
    have hscan : scanFamily Fam.inet6 input = some j :=
      (scanFamily_eq_some_iff Fam.inet6 input j).mpr ⟨hj, hget, hmin⟩
    rcases input with _ | ⟨a, l⟩
    · simp at hj
    · simp [get_next_addrinfo, hscan]
  · intro input hni hall
    have hscan : scanFamily Fam.inet6 input = none :=
      (scanFamily_eq_none_iff Fam.inet6 input).mpr hall
    rcases input with _ | ⟨a, l⟩
    · exact absurd rfl hni
    · simp [get_next_addrinfo, hscan]
  · intro input j hj hget hmin
    have hscan : scanFamily Fam.inet input = some j :=
      (scanFamily_eq_some_iff Fam.inet input j).mpr ⟨hj, hget, hmin⟩
    rcases input with _ | ⟨a, l⟩
    · simp at hj
    · simp [get_next_addrinfo, hscan]
  · intro input hall
    have hscan : scanFamily Fam.inet input = none :=
      (scanFamily_eq_none_iff Fam.inet input).mpr hall
    rcases input with _ | ⟨a, l⟩
    · simp [get_next_addrinfo]
    · simp [get_next_addrinfo, hscan]
  · intro p input j hj hget hmin
    have hscan : scanFamily Fam.inet6 input = some j :=
      (scanFamily_eq_some_iff Fam.inet6 input j).mpr ⟨hj, hget, hmin⟩
    rcases input with _ | ⟨a, l⟩
    · simp at hj
    · cases p with
      | false =>
        simp [get_next_addrinfo, hscan]
      | true =>
        have hdrop : scanFamily Fam.inet6 ((a :: l).drop j) = some 0 := by
          refine (scanFamily_eq_some_iff Fam.inet6 ((a :: l).drop j) 0).mpr ?_
          refine ⟨?_, ?_, fun m hm => by omega⟩
          · simpa using hj
          · rw [List.getD_eq_getElem?_getD, List.getElem?_drop]
            simpa [List.getD_eq_getElem?_getD] using hget
        simp [get_next_addrinfo, hscan, hdrop]
  · intro p input hall
    have hscan : scanFamily Fam.inet6 input = none :=
      (scanFamily_eq_none_iff Fam.inet6 input).mpr hall
    rcases input with _ | ⟨a, l⟩
    · simp [get_next_addrinfo]
    · cases p with
      | false => simp [get_next_addrinfo, hscan]
      | true => simp [get_next_addrinfo, hscan]

/-- Witness for the amended C6: the prefer policy applied to
[IPv4, IPv6], choosing the IPv6 entry at index 1. -/
theorem get_next_addrinfo_policy_witness :
    get_next_addrinfo true 0 [Fam.inet, Fam.inet6] = some 1 :=
  get_next_addrinfo_policy.1 [Fam.inet, Fam.inet6] 1 (by decide) (by decide)
    (by decide)

/-- Address selection inside freerdp_tcp_connect_multi (tcp.c lines
923-935): addr starts at the head of the resolved chain; when the head is
AF_INET6 and the chain has further entries, the chain after the head is
scanned for the first AF_INET entry; when none is found addr falls back
to the head.  Returns the index of the chosen entry. -/
def multiPickAddr (l : List Fam) : Nat :=
  match l with
  | [] => 0
  | f :: rest =>
    if f = Fam.inet6 ∧ rest ≠ [] then
      match scanFamily Fam.inet rest with
      | some j => j + 1
      | none => 0
    else 0

/-- Claim C8: when a multi-connect candidate resolves to a chain whose
first entry is IPv6, the race picks the first IPv4 entry found after it
(and that chosen entry really is IPv4 and no earlier non-head entry is
IPv4), and keeps the original head IPv6 entry only when no IPv4
alternative exists in the rest of the chain. -/
theorem multi_pick_prefers_ipv4 :
    (∀ (rest : List Fam) (j : Nat),
       j < rest.length → rest.getD j Fam.otherFam = Fam.inet →
       (∀ m, m < j → rest.getD m Fam.otherFam ≠ Fam.inet) →
       multiPickAddr (Fam.inet6 :: rest) = j + 1
       ∧ (Fam.inet6 :: rest).getD (j + 1) Fam.otherFam = Fam.inet)
    ∧ (∀ (rest : List Fam),
       (∀ m, m < rest.length → rest.getD m Fam.otherFam ≠ Fam.inet) →
       multiPickAddr (Fam.inet6 :: rest) = 0) := by
  constructor
  · intro rest j hj hget hmin
    have hscan : scanFamily Fam.inet rest = some j :=
      (scanFamily_eq_some_iff Fam.inet rest j).mpr ⟨hj, hget, hmin⟩
    have hrest : rest ≠ [] := by
      intro h
      subst h
      simp at hj
    refine ⟨?_, by simpa using hget⟩
    simp [multiPickAddr, hrest, hscan]
  · intro rest hall
    have hscan : scanFamily Fam.inet rest = none :=
      (scanFamily_eq_none_iff Fam.inet rest).mpr hall
    by_cases hrest : rest = []
    · subst hrest
      simp [multiPickAddr]
    · simp [multiPickAddr, hrest, hscan]

/-- Witness for C8: the chain [IPv6, IPv6, IPv4] picks the IPv4 entry at
index 2; the chain [IPv6, IPv6] keeps the head. -/
theorem multi_pick_prefers_ipv4_witness :
    (multiPickAddr [Fam.inet6, Fam.inet6, Fam.inet] = 2
      ∧ ([Fam.inet6, Fam.inet6, Fam.inet] : List Fam).getD 2 Fam.otherFam = Fam.inet)
    ∧ multiPickAddr [Fam.inet6, Fam.inet6] = 0 :=
  ⟨multi_pick_prefers_ipv4.1 [Fam.inet6, Fam.inet] 1 (by decide) (by decide) (by decide),
   multi_pick_prefers_ipv4.2 [Fam.inet6] (by decide)⟩

/-- One candidate of freerdp_tcp_connect_multi: the outcome of
freerdp_tcp_resolve_host for it (the address families of the resolved
chain; the empty list models resolution failure), whether _socket
succeeds for its chosen address, and whether the blocking _connect
succeeds for it. -/
structure MCand where
  addrs : List Fam
  socketOk : Bool
  connectOk : Bool
deriving DecidableEq, Repr

/-- Per-candidate state after the setup loop, mirroring t_peer (tcp.c
lines 876-881): cand is the candidate index; s the socket field
(0 from calloc for an unresolved candidate, -1 for INVALID_SOCKET,
index + 1 for a created socket); hasAddr whether the addr field was set;
addrOff the index of the chosen entry within the resolved chain (where
the stored addr pointer points) and addrLen the chain length. -/
structure Peer where
  cand : Nat
  s : Int
  hasAddr : Bool
  addrOff : Nat
  addrLen : Nat
deriving DecidableEq, Repr

/-- The setup loop of freerdp_tcp_connect_multi (tcp.c lines 911-947)
started at candidate index i.  A candidate that fails to resolve keeps
its calloc-zeroed peer (socket value 0, null addr, lines 901-902,
918-921); for a resolved candidate the address entry is picked by
multiPickAddr (lines 923-935) and _socket is attempted (line 937): on
success the peer stores the socket and the chosen addr; on failure the
whole resolution chain is freed immediately (line 941) and the peer
keeps INVALID_SOCKET and a null addr.  Returns the candidate-peer list
and the (candidate, entry) pairs freed during setup. -/
def setupPeers : Nat → List MCand → List (MCand × Peer) × List (Nat × Nat)
  | _, [] => ([], [])
  | i, c :: cs =>
    match c.addrs with
    | [] =>
      ((c, Peer.mk i 0 false 0 0) :: (setupPeers (i + 1) cs).1, (setupPeers (i + 1) cs).2)
    | _ :: _ =>
      if c.socketOk then
        ((c, Peer.mk i ((i : Int) + 1) true (multiPickAddr c.addrs) c.addrs.length)
            :: (setupPeers (i + 1) cs).1,
         (setupPeers (i + 1) cs).2)
      else
        ((c, Peer.mk i (-1) false 0 0) :: (setupPeers (i + 1) cs).1,
         (List.range c.addrs.length).map (fun k => (i, k)) ++ (setupPeers (i + 1) cs).2)

/-- The connect loop (tcp.c lines 949-967): the sockfd variable is
assigned each peer socket before the validity check (line 951);
candidates without a created socket or without an address are skipped;
the first successful blocking connect wins and the loop breaks.
Returns the final value of the sockfd variable, the winning peer if any,
and the candidate indices on which _connect was attempted, in order. -/
def connectLoop : List (MCand × Peer) → Int → Int × Option Peer × List Nat
  | [], sockfd => (sockfd, none, [])
  | (c, p) :: rest, _ =>
    if p.s = -1 ∨ p.hasAddr = false then connectLoop rest p.s
    else if c.connectOk then (p.s, some p, [p.cand])
    else
      ((connectLoop rest p.s).1, (connectLoop rest p.s).2.1,
       p.cand :: (connectLoop rest p.s).2.2)

/-- The freeaddrinfo(peer->addr) call of peer_free (tcp.c line 888): it
frees the chain from the stored addr pointer onward, i.e. the entries of
the resolution from the chosen offset to the end of the chain; a null
addr frees nothing. -/
def peerFreeNodes (p : Peer) : List (Nat × Nat) :=
  if p.hasAddr then
    (List.range (p.addrLen - p.addrOff)).map (fun k => (p.cand, p.addrOff + k))
  else []

/-- The cleanup loop (tcp.c lines 977-978) running peer_free over every
peer: closesocket is called on every socket value other than
INVALID_SOCKET (tcp.c lines 885-886), and the addr chain of each peer is
freed from its chosen entry onward.  Returns the closesocket arguments
and the freed (candidate, entry) pairs. -/
def cleanupPeers (peers : List Peer) : List Int × List (Nat × Nat) :=
  (peers.filterMap (fun p => if p.s = -1 then none else some p.s),
   (peers.map peerFreeNodes).flatten)

/-- Detaching the winner before cleanup (tcp.c line 972): the winning
peer socket field is reset to INVALID_SOCKET so that peer_free does not
close it; its addr field is untouched and still freed. -/
def detachWinner (w : Option Peer) (peers : List Peer) : List Peer :=
  match w with
  | none => peers
  | some wp =>
    peers.map (fun p =>
      if p.cand = wp.cand then Peer.mk p.cand (-1) p.hasAddr p.addrOff p.addrLen else p)

/-- freerdp_tcp_connect_multi (tcp.c lines 893-983) over its candidate
list: setup, sequential blocking race, detach of the winner, cleanup of
every peer.  Returns (return value of the function, candidate indices on
which a connect was attempted, closesocket arguments, freed
(candidate, entry) pairs).  On success the returned socket is the
winning peer socket (line 971); on total failure the function returns
the last value of the sockfd loop variable (initially INVALID_SOCKET). -/
def freerdp_tcp_connect_multi (cands : List MCand) :
    Int × List Nat × List Int × List (Nat × Nat) :=
  if cands.length < 1 then (-1, [], [], [])
  else
    ((match (connectLoop (setupPeers 0 cands).1 (-1)).2.1 with
      | some wp => wp.s
      | none => (connectLoop (setupPeers 0 cands).1 (-1)).1),
     (connectLoop (setupPeers 0 cands).1 (-1)).2.2,
     (cleanupPeers (detachWinner (connectLoop (setupPeers 0 cands).1 (-1)).2.1
        ((setupPeers 0 cands).1.map Prod.snd))).1,
     (setupPeers 0 cands).2
       ++ (cleanupPeers (detachWinner (connectLoop (setupPeers 0 cands).1 (-1)).2.1
        ((setupPeers 0 cands).1.map Prod.snd))).2)

/-- The value of the setup loop on a list of candidates that all resolve
and all create their socket. -/
def viableSetup : Nat → List MCand → List (MCand × Peer)
  | _, [] => []
  | i, c :: cs =>
    (c, Peer.mk i ((i : Int) + 1) true (multiPickAddr c.addrs) c.addrs.length)
      :: viableSetup (i + 1) cs

theorem setupPeers_viable :
    ∀ (cs : List MCand) (i : Nat),
      (∀ c ∈ cs, c.addrs ≠ [] ∧ c.socketOk = true ∧ c.connectOk = true) →
      setupPeers i cs = (viableSetup i cs, []) := by
  intro cs
  induction cs with
  | nil => intro i _; rfl
  | cons c cs ih =>
    intro i h
    have hc := h c (List.mem_cons_self c cs)
    have hcs := fun d hd => h d (List.mem_cons_of_mem c hd)
    rcases hc with ⟨hne, hsock, -⟩
    rcases ha : c.addrs with _ | ⟨a, l⟩
    · exact absurd ha hne
    · simp [setupPeers, viableSetup, ha, hsock, ih i.succ hcs]

theorem connectLoop_viable_head (c : MCand) (cs : List MCand) (i : Nat) (s0 : Int)
    (hconn : c.connectOk = true) :
    connectLoop (viableSetup i (c :: cs)) s0
      = ((i : Int) + 1,
         some (Peer.mk i ((i : Int) + 1) true (multiPickAddr c.addrs) c.addrs.length),
         [i]) := by
  have hne : ¬ ((i : Int) + 1 = -1) := by omega
  simp [viableSetup, connectLoop, hconn, hne]

theorem viableSetup_cand_ge :
    ∀ (cs : List MCand) (i : Nat) (p : Peer),
      p ∈ (viableSetup i cs).map Prod.snd → i ≤ p.cand := by
  intro cs
  induction cs with
  | nil => intro i p h; simp [viableSetup] at h
  | cons c cs ih =>
    intro i p h
    simp only [viableSetup, List.map_cons, List.mem_cons] at h
    rcases h with h | h
    · subst h; simp
    · have := ih (i + 1) p h
      omega

theorem detach_map_id_zero :
    ∀ (ps : List Peer), (∀ p ∈ ps, 1 ≤ p.cand) →
      ps.map (fun p =>
        if p.cand = 0 then Peer.mk p.cand (-1) p.hasAddr p.addrOff p.addrLen else p) = ps := by
  intro ps
  induction ps with
  | nil => intro _; rfl
  | cons p ps ih =>
    intro h
    have hp := h p (List.mem_cons_self p ps)
    have hne : ¬ (p.cand = 0) := by omega
    simp [hne, ih (fun q hq => h q (List.mem_cons_of_mem p hq))]

theorem cleanup_closed_mem_of (ps : List Peer) (p : Peer) (hp : p ∈ ps)
    (hs : ¬ p.s = -1) : p.s ∈ (cleanupPeers ps).1 := by
  simp only [cleanupPeers]
  exact List.mem_filterMap.mpr ⟨p, hp, by simp [hs]⟩

theorem cleanup_freed_mem_of (ps : List Peer) (p : Peer) (hp : p ∈ ps)
    (x : Nat × Nat) (hx : x ∈ peerFreeNodes p) : x ∈ (cleanupPeers ps).2 := by
  simp only [cleanupPeers]
  exact List.mem_flatten.mpr ⟨peerFreeNodes p, List.mem_map_of_mem _ hp, hx⟩

theorem peerFreeNodes_mem (cand : Nat) (s : Int) (off len j : Nat)
    (h1 : off ≤ j) (h2 : j < len) :
    (cand, j) ∈ peerFreeNodes (Peer.mk cand s true off len) := by
  simp only [peerFreeNodes, if_pos]
  refine List.mem_map.mpr ⟨j - off, List.mem_range.mpr (by omega), ?_⟩
  have hoff : off + (j - off) = j := by omega
  simp [hoff]

theorem viableSetup_getD_mem :
    ∀ (cs : List MCand) (i k : Nat), k < cs.length →
      Peer.mk (i + k) (((i + k : Nat) : Int) + 1) true
          (multiPickAddr ((cs.getD k (MCand.mk [] false false)).addrs))
          ((cs.getD k (MCand.mk [] false false)).addrs).length
        ∈ (viableSetup i cs).map Prod.snd := by
  intro cs
  induction cs with
  | nil => intro i k hk; simp at hk
  | cons c cs ih =>
    intro i k hk
    cases k with
    | zero => simp [viableSetup]
    | succ k0 =>
      have hmem := ih (i + 1) k0 (by simpa using hk)
      have hidx : i + (k0 + 1) = (i + 1) + k0 := by omega
      simp only [viableSetup, List.map_cons, List.mem_cons, List.getD_cons_succ]
      right
      rw [hidx]
      exact hmem

theorem cleanup_closed_ge :
    ∀ (cs : List MCand) (i : Nat) (x : Int),
      x ∈ (cleanupPeers ((viableSetup i cs).map Prod.snd)).1 → (i : Int) + 1 ≤ x := by
  intro cs
  induction cs with
  | nil => intro i x h; simp [viableSetup, cleanupPeers] at h
  | cons c cs ih =>
    intro i x h
    have hne : ¬ ((i : Int) + 1 = -1) := by omega
    simp only [viableSetup, List.map_cons, cleanupPeers, List.filterMap_cons] at h
    rw [if_neg hne] at h
    rcases List.mem_cons.mp h with h | h
    · omega
    · have := ih (i + 1) x h
      omega

/-- Counterexample to C5: two candidates, both resolving and both able to
connect; the second (non-winning) candidate resolves to [IPv6, IPv4], so
its stored addr points to the IPv4 entry at index 1, and peer_free
(tcp.c line 888) calls freeaddrinfo on that pointer: entry 1 of the
second candidate is freed but entry 0 (the IPv6 head of its chain) never
is, even though the candidate lost the race — its resolved-address
memory is not fully released. -/
theorem connect_multi_free_counterexample :
    (freerdp_tcp_connect_multi
        [MCand.mk [Fam.inet] true true, MCand.mk [Fam.inet6, Fam.inet] true true]).1 = 1
    ∧ (1, 1) ∈ (freerdp_tcp_connect_multi
        [MCand.mk [Fam.inet] true true, MCand.mk [Fam.inet6, Fam.inet] true true]).2.2.2
    ∧ (1, 0) ∉ (freerdp_tcp_connect_multi
        [MCand.mk [Fam.inet] true true, MCand.mk [Fam.inet6, Fam.inet] true true]).2.2.2 := by
  refine ⟨by decide, by decide, by decide⟩

/-- Claim C5 as amended: in a multi-target race where every candidate
resolves and could connect, the race returns the socket of the first
candidate in original submission order (socket value 1 for candidate 0),
attempts a connect only on that first candidate (no further candidates
are tried), closes every non-winning candidate's socket while never
closing the winner's, and frees each candidate's resolution chain from
its chosen entry onward — the whole chain when the chosen entry is the
head, but the entries before a chosen IPv4 alternative (after an IPv6
head) are not freed. -/
theorem connect_multi_first_wins (cands : List MCand) (h2 : 2 ≤ cands.length)
    (hall : ∀ c ∈ cands, c.addrs ≠ [] ∧ c.socketOk = true ∧ c.connectOk = true) :
    (freerdp_tcp_connect_multi cands).1 = 1
    ∧ (freerdp_tcp_connect_multi cands).2.1 = [0]
    ∧ (∀ i : Nat, 0 < i → i < cands.length →
        ((i : Int) + 1) ∈ (freerdp_tcp_connect_multi cands).2.2.1)
    ∧ (1 : Int) ∉ (freerdp_tcp_connect_multi cands).2.2.1
    ∧ (∀ k : Nat, k < cands.length →
        ∀ j : Nat, multiPickAddr ((cands.getD k (MCand.mk [] false false)).addrs) ≤ j →
          j < ((cands.getD k (MCand.mk [] false false)).addrs).length →
          (k, j) ∈ (freerdp_tcp_connect_multi cands).2.2.2) := by
  rcases cands with _ | ⟨c0, cs⟩
  · simp at h2
  have hc0 := hall c0 (List.mem_cons_self c0 cs)
  have hlen : ¬ ((c0 :: cs).length < 1) := by simp
  have hsetup := setupPeers_viable (c0 :: cs) 0 hall
  have hsetup1 : (setupPeers 0 (c0 :: cs)).1 = viableSetup 0 (c0 :: cs) := by rw [hsetup]
  have hsetup2 : (setupPeers 0 (c0 :: cs)).2 = [] := by rw [hsetup]
  have hrace := connectLoop_viable_head c0 cs 0 (-1) hc0.2.2
  have htail : ∀ p ∈ (viableSetup 1 cs).map Prod.snd, 1 ≤ p.cand :=
    fun p hp => viableSetup_cand_ge cs 1 p hp
  have hmain : freerdp_tcp_connect_multi (c0 :: cs)
      = (((0 : Nat) : Int) + 1, [0],
         (cleanupPeers ((viableSetup 1 cs).map Prod.snd)).1,
         peerFreeNodes (Peer.mk 0 (-1) true (multiPickAddr c0.addrs) c0.addrs.length)
           ++ (cleanupPeers ((viableSetup 1 cs).map Prod.snd)).2) := by
    simp only [freerdp_tcp_connect_multi]
    rw [if_neg hlen, hsetup1, hsetup2, hrace]
    simp only [viableSetup, List.map_cons, detachWinner, cleanupPeers, List.filterMap_cons,
      List.flatten, List.map_cons]
    rw [detach_map_id_zero ((viableSetup 1 cs).map Prod.snd) htail]
    simp [cleanupPeers]
  rw [hmain]
  refine ⟨by norm_num, rfl, ?_, ?_, ?_⟩
  · intro i hi hilen
    have hk : i - 1 < cs.length := by
      simp only [List.length_cons] at hilen
      omega
    have hmem := viableSetup_getD_mem cs 1 (i - 1) hk
    have hidx : 1 + (i - 1) = i := by omega
    rw [hidx] at hmem
    have hclosed := cleanup_closed_mem_of _ _ hmem
      (show ¬ (((i : Nat) : Int) + 1 = -1) by omega)
    simpa using hclosed
  · intro hmem
    have := cleanup_closed_ge cs 1 1 (by simpa using hmem)
    omega
  · intro k hk j hj1 hj2
    cases k with
    | zero =>
      refine List.mem_append.mpr (Or.inl ?_)
      simp only [List.getD_cons_zero] at hj1 hj2
      exact peerFreeNodes_mem 0 (-1) (multiPickAddr c0.addrs) c0.addrs.length j hj1 hj2
    | succ k0 =>
      refine List.mem_append.mpr (Or.inr ?_)
      have hk0 : k0 < cs.length := by
        simp only [List.length_cons] at hk
        omega
      have hmem := viableSetup_getD_mem cs 1 k0 hk0
      have hidx : 1 + k0 = k0 + 1 := by omega
      rw [hidx] at hmem
      simp only [List.getD_cons_succ] at hj1 hj2
      exact cleanup_freed_mem_of _ _ hmem (k0 + 1, j)
        (peerFreeNodes_mem (k0 + 1) (((k0 + 1 : Nat) : Int) + 1)
          (multiPickAddr ((cs.getD k0 (MCand.mk [] false false)).addrs))
          ((cs.getD k0 (MCand.mk [] false false)).addrs).length j hj1 hj2)

/-- Witness for the amended C5: two single-family candidates, both viable;
the race returns socket 1 of candidate 0, attempts only candidate 0,
closes socket 2 of candidate 1 but never socket 1, and frees both
resolution chains entirely (their chosen entries are the heads). -/
theorem connect_multi_first_wins_witness :
    2 ≤ ([MCand.mk [Fam.inet] true true, MCand.mk [Fam.inet6] true true] : List MCand).length
    ∧ (∀ c ∈ ([MCand.mk [Fam.inet] true true, MCand.mk [Fam.inet6] true true] : List MCand),
        c.addrs ≠ [] ∧ c.socketOk = true ∧ c.connectOk = true)
    ∧ (freerdp_tcp_connect_multi
        [MCand.mk [Fam.inet] true true, MCand.mk [Fam.inet6] true true]).1 = 1
    ∧ (freerdp_tcp_connect_multi
        [MCand.mk [Fam.inet] true true, MCand.mk [Fam.inet6] true true]).2.1 = [0] := by
  have h := connect_multi_first_wins
    [MCand.mk [Fam.inet] true true, MCand.mk [Fam.inet6] true true]
    (by decide) (by decide)
  exact ⟨by decide, by decide, h.1, h.2.1⟩

end FreeRDPTcp
